import Mathlib

/-!
Shallow embedding of the terminal-chat backend core: the WebSocket ingest
pipeline (auth, envelope validation, persistence, viewer-scoped cache
synchronization, fan-out, ack), the cache-aside history read path
(getMessages) and the chat-list read path (getChats).

Sources: src/socket/socket.ts (the wired WebSocket pipeline, imported by
server.ts: persist, then two awaited uncaught viewer-key cache deletes,
then fan-out and ack), src/unnamed/part_003 (the repository's
prepend-based pipeline variant with viewer-cache prepend and chat-list
invalidation, cited by several claims), and
src/controllers/messageController.ts (getMessages, getChats).
-/

namespace TChat

/-- An encrypted envelope: four uninterpreted string fields (from type
HybridEncrypted in src/unnamed/part_003). -/
structure HybridEncrypted where
  iv : String
  encryptedKey : String
  encryptedMessage : String
  authTag : String
deriving DecidableEq

/-- A JavaScript field value as far as the validator cares: a string, or
something that is present but not a string. -/
inductive FieldVal where
  | str (s : String)
  | nonstr
deriving DecidableEq

/-- The shape of a JavaScript object claimed to be an envelope: each of the
four expected fields may be absent or hold a value. -/
structure EnvShape where
  iv : Option FieldVal
  encryptedKey : Option FieldVal
  encryptedMessage : Option FieldVal
  authTag : Option FieldVal
deriving DecidableEq

/-- typeof field === "string" check on one field. -/
def isStr : Option FieldVal → Bool
  | some (.str _) => true
  | _ => false

/-- isHybridEncrypted from src/unnamed/part_003 lines 44-53: the value is an
object and all four fields are strings. -/
def isHybridEncrypted (o : EnvShape) : Bool :=
  isStr o.iv && isStr o.encryptedKey && isStr o.encryptedMessage && isStr o.authTag

def strOf : Option FieldVal → String
  | some (.str s) => s
  | _ => ""

/-- Read the four string fields out of a shape that passed validation. -/
def toEnvelope (o : EnvShape) : HybridEncrypted :=
  { iv := strOf o.iv, encryptedKey := strOf o.encryptedKey,
    encryptedMessage := strOf o.encryptedMessage, authTag := strOf o.authTag }

/-- A parsed JSON value in the positions the pipeline inspects: an object
with the envelope fields, or any non-object JSON value. -/
inductive JSVal where
  | obj (o : EnvShape)
  | nonObj
deriving DecidableEq

/-- A content field of an incoming message frame: it arrives either as a
structured value, or as a string; for a string we record its JSON.parse
result (none models a parse exception). -/
inductive ContentInput where
  | objIn (v : JSVal)
  | strIn (p : Option JSVal)
deriving DecidableEq

/-- The normalization step of src/unnamed/part_003 lines 139-144:
strings are JSON.parsed first (none = the parse threw). -/
def normalize : ContentInput → Option JSVal
  | .objIn v => some v
  | .strIn p => p

/-- isHybridEncrypted applied to a parsed JSON value (a non-object fails the
typeof object check). -/
def validJS : JSVal → Bool
  | .obj o => isHybridEncrypted o
  | .nonObj => false

/-- Extraction of the envelope from a value that passed validJS (the
fallback branch is unreachable on validated values). -/
def envOf : JSVal → HybridEncrypted
  | .obj o => toEnvelope o
  | .nonObj => ⟨"", "", "", ""⟩

/-! ### Durable store -/

/-- A durable message record (prisma model: id, senderId, receiverId, the
two envelopes, timestamp, read flag defaulting to false). -/
structure MessageRecord where
  id : String
  senderId : String
  receiverId : String
  contentForSender : HybridEncrypted
  contentForReceiver : HybridEncrypted
  timestamp : Nat
  read : Bool
deriving DecidableEq

abbrev DB := List MessageRecord

/-- A user record, as selected by getChats (id, username). -/
structure UserRec where
  id : String
  username : String
deriving DecidableEq

/-! ### Cache store -/

/-- One item of a viewer cache entry: the viewer's own projection of a
message (id, senderId, timestamp, the viewer's decryptable content). -/
structure CacheItem where
  id : String
  senderId : String
  timestamp : Nat
  content : HybridEncrypted
deriving DecidableEq

/-- One item of the chat-list cache: partner profile, unread count, last
message timestamp. -/
structure ChatItem where
  id : String
  username : String
  unreadCount : Nat
  lastMessageTimestamp : Nat
deriving DecidableEq

/-- A value stored in the cache: a serialized list of viewer items, a
serialized chat list, or a payload that fails JSON.parse. -/
inductive CacheVal where
  | items (l : List CacheItem)
  | chats (l : List ChatItem)
  | corrupt
deriving DecidableEq

/-- A cache entry: the stored value together with the TTL it was last
written with. -/
structure CacheEntry where
  val : CacheVal
  ttl : Nat
deriving DecidableEq

/-- The key-value cache, keys unique by construction of cacheSet. -/
abbrev Cache := List (String × CacheEntry)

/-- Lookup in an association list (the shared shape of the cache store and
the clients registry). -/
def alFind {α β : Type} [BEq α] (l : List (α × β)) (k : α) : Option β :=
  (l.find? (fun p => p.1 == k)).map Prod.snd

/-- Remove a key from an association list. -/
def alRemove {α β : Type} [BEq α] (l : List (α × β)) (k : α) : List (α × β) :=
  l.filter (fun p => p.1 != k)

/-- Bind a key in an association list (replacing any previous binding). -/
def alInsert {α β : Type} [BEq α] (l : List (α × β)) (k : α) (v : β) : List (α × β) :=
  (k, v) :: alRemove l k

/-- redis.get. -/
def cacheGet (c : Cache) (k : String) : Option CacheEntry :=
  alFind c k

/-- redis.set with EX ttl: replaces any entry at the key and resets its TTL. -/
def cacheSet (c : Cache) (k : String) (v : CacheVal) (ttl : Nat) : Cache :=
  alInsert c k ⟨v, ttl⟩

/-- redis.del. -/
def cacheDel (c : Cache) (k : String) : Cache :=
  alRemove c k

/-- JSON.parse of a cached payload: succeeds on well-formed payloads,
fails on a corrupt one. -/
def parseCache : CacheVal → Option CacheVal
  | .items l => some (.items l)
  | .chats l => some (.chats l)
  | .corrupt => none

/-- safeParse from src/unnamed/part_003 lines 62-69, specialized to the
viewer item list type: null input or a parse failure yields null. -/
def safeParseItems : Option CacheEntry → Option (List CacheItem)
  | some e =>
    match e.val with
    | .items l => some l
    | _ => none
  | none => none

/-- HISTORY_CACHE_LIMIT (src/unnamed/part_003 line 40). -/
def HISTORY_CACHE_LIMIT : Nat := 100

/-- CACHE_TTL_SECONDS in the socket module (src/unnamed/part_003 line 41). -/
def CACHE_TTL_SECONDS : Nat := 3600

/-- CACHE_TTL_SECONDS in the message controller: parseInt of
MESSAGE_CACHE_TTL with default "3600". -/
def MESSAGE_CACHE_TTL : Nat := 3600

/-- Code-unit comparison of two characters, as the JavaScript default sort
compares string elements. -/
def charLtb (c d : Char) : Bool := Nat.blt c.toNat d.toNat

/-- Lexicographic less-or-equal on character lists. -/
def charListLeb : List Char → List Char → Bool
  | [], _ => true
  | _ :: _, [] => false
  | c :: cs, d :: ds =>
    if charLtb c d then true
    else if charLtb d c then false
    else charListLeb cs ds

/-- Lexicographic string comparison used by the (default) JavaScript sort
in [a, b].sort(). -/
def strLeb (a b : String) : Bool := charListLeb a.data b.data

/-- viewerCacheKey from src/unnamed/part_003 lines 56-59: sort the pair,
append the viewer. -/
def viewerCacheKey (a b viewerId : String) : String :=
  let x := if strLeb a b then a else b
  let y := if strLeb a b then b else a
  "chat:" ++ x ++ ":" ++ y ++ ":viewer:" ++ viewerId

/-- The chat-list cache key chats:viewer:<id>. -/
def chatsKey (viewerId : String) : String :=
  "chats:viewer:" ++ viewerId

/-- prependToViewerCache from src/unnamed/part_003 lines 72-85. The fail
flag models the redis client throwing inside the try block: the error is
caught and logged, the cache is left as it was. Otherwise: fetch, decode
with empty fallback, unshift, truncate to HISTORY_CACHE_LIMIT, set with
TTL reset. -/
def prependToViewerCache (fail : Bool) (c : Cache) (key : String) (item : CacheItem) : Cache :=
  if fail then c
  else
    let arr := (safeParseItems (cacheGet c key)).getD []
    let arr2 := (item :: arr).take HISTORY_CACHE_LIMIT
    cacheSet c key (.items arr2) CACHE_TTL_SECONDS

/-! ### Assoc-list helpers for the connection registry -/

/-- clients.get. -/
def clientsGet (r : List (String × Nat)) (u : String) : Option Nat :=
  alFind r u

/-- clients.set (last-writer-wins on the identity key). -/
def clientsSet (r : List (String × Nat)) (u : String) (c : Nat) : List (String × Nat) :=
  alInsert r u c

/-- clients.delete. -/
def clientsDel (r : List (String × Nat)) (u : String) : List (String × Nat) :=
  alRemove r u

/-- boundGet b c: the per-connection userId variable of connection c. -/
def boundGet (b : List (Nat × String)) (c : Nat) : Option String :=
  alFind b c

/-- Bind the per-connection userId variable of connection c. -/
def boundSet (b : List (Nat × String)) (c : Nat) (u : String) : List (Nat × String) :=
  alInsert b c u

/-! ### Frames -/

/-- Outgoing frames (type OutgoingWS). -/
inductive Frame where
  | authSuccess (message : String)
  | authError (message : String)
  | message (id senderId : String) (content : HybridEncrypted) (timestamp : Nat)
  | sentAck (messageId : String)
  | error (message : String)
deriving DecidableEq

/-- A bearer token as the pipeline sees it: jwt.verify either yields an id
claim or throws. -/
inductive Token where
  | valid (id : String)
  | invalid
deriving DecidableEq

/-! ### The message-frame branch of the ingest pipeline -/

/-- Cache-client failure flags for the cache calls made during one send:
each flag set means that redis call throws. prepend failures are caught
inside prependToViewerCache; the two chat-list deletes run under
Promise.allSettled inside a try block, so each failure is settled
independently and logged. -/
structure CacheFaults where
  prependSender : Bool
  prependReceiver : Bool
  chatDelSender : Bool
  chatDelReceiver : Bool
deriving DecidableEq

/-- The outcome of handling one message frame: resulting store and cache,
frames sent (paired with the destination connection id), and connections
closed by the handler. -/
structure MsgOutcome where
  db : DB
  cache : Cache
  outputs : List (Nat × Frame)
  closes : List Nat
deriving DecidableEq

/-- Socket-server state visible to the message branch: durable store,
cache, and the clients registry. -/
structure SockState where
  db : DB
  cache : Cache
  clients : List (String × Nat)
deriving DecidableEq

/-- The message branch of the prepend-based pipeline variant
src/unnamed/part_003 lines 135-232 (not the one server.ts imports — see
handleMessageFrameWired for that one), for a connection selfConn already
authenticated as userId. dbOk models prisma.message.create succeeding; the
store assigns newId and the timestamp now. A JSON.parse throw during
normalization, a failed envelope validation, or a persistence failure all
land in the outer catch, which sends one error frame and leaves every
piece of state unchanged. -/
def handleMessageFrame (st : SockState) (selfConn : Nat) (userId : String)
    (receiverId : String) (cfs cfr : ContentInput)
    (dbOk : Bool) (faults : CacheFaults) (newId : String) (now : Nat) : MsgOutcome :=
  let abort : MsgOutcome := ⟨st.db, st.cache, [(selfConn, .error "Invalid message format")], []⟩
  match normalize cfs, normalize cfr with
  | some sv, some rv =>
    if validJS sv && validJS rv then
      if dbOk then
        let s := envOf sv
        let r := envOf rv
        let dbMessage : MessageRecord :=
          ⟨newId, userId, receiverId, s, r, now, false⟩
        let db2 := st.db ++ [dbMessage]
        let senderView : CacheItem := ⟨newId, userId, now, s⟩
        let receiverView : CacheItem := ⟨newId, userId, now, r⟩
        let senderKey := viewerCacheKey userId receiverId userId
        let receiverKey := viewerCacheKey userId receiverId receiverId
        let c2 := prependToViewerCache faults.prependSender st.cache senderKey senderView
        let c3 := prependToViewerCache faults.prependReceiver c2 receiverKey receiverView
        let c4 := if faults.chatDelSender then c3 else cacheDel c3 (chatsKey userId)
        let c5 := if faults.chatDelReceiver then c4 else cacheDel c4 (chatsKey receiverId)
        let outsRecv :=
          match clientsGet st.clients receiverId with
          | some c => [(c, Frame.message newId userId r now)]
          | none => []
        let outsSend :=
          match clientsGet st.clients userId with
          | some c => [(c, Frame.message newId userId s now)]
          | none => []
        ⟨db2, c5, outsRecv ++ outsSend ++ [(selfConn, .sentAck newId)], []⟩
      else abort
    else abort
  | _, _ => abort

/-- The message branch of the WIRED pipeline src/socket/socket.ts lines
98-165, the file server.ts imports. After persisting, it runs two awaited
redis.del calls on the viewer-scoped keys (lines 126-129) with no local
try/catch: a delete failure (delSenderFail / delReceiverFail) propagates
to the outer catch, which sends the generic error frame and skips the
fan-out and the ack — the already-persisted record remains. It performs no
viewer-cache prepend and no chat-list invalidation. -/
def handleMessageFrameWired (st : SockState) (selfConn : Nat) (userId : String)
    (receiverId : String) (cfs cfr : ContentInput)
    (dbOk : Bool) (delSenderFail delReceiverFail : Bool)
    (newId : String) (now : Nat) : MsgOutcome :=
  let abort : MsgOutcome := ⟨st.db, st.cache, [(selfConn, .error "Invalid message format")], []⟩
  match normalize cfs, normalize cfr with
  | some sv, some rv =>
    if validJS sv && validJS rv then
      if dbOk then
        let s := envOf sv
        let r := envOf rv
        let dbMessage : MessageRecord :=
          ⟨newId, userId, receiverId, s, r, now, false⟩
        let db2 := st.db ++ [dbMessage]
        if delSenderFail then
          ⟨db2, st.cache, [(selfConn, .error "Invalid message format")], []⟩
        else
          let c2 := cacheDel st.cache (viewerCacheKey userId receiverId userId)
          if delReceiverFail then
            ⟨db2, c2, [(selfConn, .error "Invalid message format")], []⟩
          else
            let c3 := cacheDel c2 (viewerCacheKey userId receiverId receiverId)
            let outsRecv :=
              match clientsGet st.clients receiverId with
              | some c => [(c, Frame.message newId userId r now)]
              | none => []
            let outsSend :=
              match clientsGet st.clients userId with
              | some c => [(c, Frame.message newId userId s now)]
              | none => []
            ⟨db2, c3, outsRecv ++ outsSend ++ [(selfConn, .sentAck newId)], []⟩
      else abort
    else abort
  | _, _ => abort

/-! ### Connection lifecycle (auth and close handlers) -/

/-- Connection-level state: the clients registry, each connection's bound
userId variable, and the set of open connections. -/
structure ConnState where
  registry : List (String × Nat)
  bound : List (Nat × String)
  openConns : List Nat
deriving DecidableEq

/-- The auth branch of src/unnamed/part_003 lines 98-122 for connection c:
a second auth frame on an authed connection is a silent no-op; a valid
token binds the id and registers the connection (last-writer-wins); an
invalid token gets auth_error and the connection is closed. -/
def handleAuth (st : ConnState) (c : Nat) (t : Token) : ConnState × List (Nat × Frame) :=
  match boundGet st.bound c with
  | some _ => (st, [])
  | none =>
    match t with
    | .valid u =>
      ({ st with bound := boundSet st.bound c u, registry := clientsSet st.registry u c },
       [(c, .authSuccess "Authentication successful")])
    | .invalid =>
      ({ st with openConns := st.openConns.filter (fun x => x != c) },
       [(c, .authError "Invalid token")])

/-- The close handler of src/unnamed/part_003 lines 240-242: if the
connection had a bound userId, delete that registry key unconditionally. -/
def handleClose (st : ConnState) (c : Nat) : ConnState :=
  let reg :=
    match boundGet st.bound c with
    | some u => clientsDel st.registry u
    | none => st.registry
  { st with registry := reg, openConns := st.openConns.filter (fun x => x != c) }

/-! ### History read path (getMessages, messageController.ts lines 11-143) -/

/-- The per-record effect of the updateMany in getMessages lines 25-34: a
record matching the where-clause gets read = true, any other record is
left alone. -/
def readFlip (otherUserId currentUserId : String) (m : MessageRecord) : MessageRecord :=
  if m.senderId == otherUserId && m.receiverId == currentUserId && m.read == false
  then { m with read := true } else m

/-- prisma.message.updateMany of getMessages lines 25-34: set read = true on
every record with senderId = otherUserId, receiverId = currentUserId,
read = false. -/
def markReadUpdate (otherUserId currentUserId : String) (db : DB) : DB :=
  db.map (readFlip otherUserId currentUserId)

/-- The findMany where-clause of getMessages lines 84-94: both directions of
the pair. -/
def pairFilter (a b : String) (db : DB) : DB :=
  db.filter fun m =>
    (m.senderId == a && m.receiverId == b) || (m.senderId == b && m.receiverId == a)

/-- Insertion into a timestamp-descending list, keeping earlier-listed
records first on ties. -/
def insertDesc (m : MessageRecord) : List MessageRecord → List MessageRecord
  | [] => [m]
  | x :: xs => if m.timestamp ≤ x.timestamp then x :: insertDesc m xs else m :: x :: xs

/-- orderBy timestamp desc. -/
def sortByTimestampDesc : List MessageRecord → List MessageRecord
  | [] => []
  | x :: xs => insertDesc x (sortByTimestampDesc xs)

/-- The map of getMessages lines 102-114: project each record to the
viewer's decryptable content. -/
def projectForViewer (viewer : String) (msgs : DB) : List CacheItem :=
  msgs.map fun m =>
    ⟨m.id, m.senderId, m.timestamp,
     if m.senderId == viewer then m.contentForSender else m.contentForReceiver⟩

/-- The store-computed one-to-one history: filter the pair, newest first,
projected for the viewer. -/
def storeComputedHistory (viewer other : String) (db : DB) : List CacheItem :=
  projectForViewer viewer (sortByTimestampDesc (pairFilter viewer other db))

/-- Failure flags for the calls getMessages makes. markReadOk models the
fire-and-forget updateMany succeeding (its failure is caught by its own
.catch); the redis get/del/set calls are not individually wrapped, so a
throw there reaches the outer catch and yields a 500. -/
structure ReadFaults where
  markReadOk : Bool
  getOk : Bool
  delOk : Bool
  setOk : Bool
deriving DecidableEq

/-- The HTTP-level response of a read: a JSON payload (with a cache-hit
flag) or a 500 server error. -/
inductive ReadResp where
  | payload (p : CacheVal) (hit : Bool)
  | serverError
deriving DecidableEq

/-- Outcome of a read operation. -/
structure ReadOutcome where
  db : DB
  cache : Cache
  resp : ReadResp
deriving DecidableEq

/-- The store-path tail of getMessages (lines 82-138): fetch, project,
cache only when non-empty, return with X-Cache MISS. -/
def getMessagesMiss (dbCur : DB) (cache : Cache) (viewer other : String)
    (setOk : Bool) : ReadOutcome :=
  let items := storeComputedHistory viewer other dbCur
  if items.length > 0 then
    if setOk then
      ⟨dbCur,
       cacheSet cache (viewerCacheKey viewer other viewer) (.items items) MESSAGE_CACHE_TTL,
       .payload (.items items) false⟩
    else ⟨dbCur, cache, .serverError⟩
  else ⟨dbCur, cache, .payload (.items items) false⟩

/-- getMessages (messageController.ts lines 11-143): dispatch mark-as-read
fire-and-forget, then cache-aside read under the viewer-scoped key; a hit
with a parseable payload returns directly; a corrupt payload is deleted
and the store path runs; a miss runs the store path. -/
def getMessages (db : DB) (cache : Cache) (currentUserId otherUserId : String)
    (f : ReadFaults) : ReadOutcome :=
  let db1 := if f.markReadOk then markReadUpdate otherUserId currentUserId db else db
  let cacheKey := viewerCacheKey currentUserId otherUserId currentUserId
  if f.getOk then
    match cacheGet cache cacheKey with
    | some e =>
      match parseCache e.val with
      | some p => ⟨db1, cache, .payload p true⟩
      | none =>
        if f.delOk then
          getMessagesMiss db1 (cacheDel cache cacheKey) currentUserId otherUserId f.setOk
        else ⟨db1, cache, .serverError⟩
    | none => getMessagesMiss db1 cache currentUserId otherUserId f.setOk
  else ⟨db1, cache, .serverError⟩

/-! ### Chat-list read path (getChats, messageController.ts lines 149-265) -/

/-- prisma.message.count of line 224: unread messages from the partner to
the viewer. -/
def unreadCount (partnerId viewer : String) (db : DB) : Nat :=
  (db.filter fun m =>
    m.senderId == partnerId && m.receiverId == viewer && m.read == false).length

/-- findFirst orderBy timestamp desc over the pair, defaulting to
new Date(0). -/
def lastMessageTimestamp (a b : String) (db : DB) : Nat :=
  match sortByTimestampDesc (pairFilter a b db) with
  | [] => 0
  | m :: _ => m.timestamp

/-- The store-computed chat list of getChats lines 179-245: the distinct
partners of the viewer (as rows of the user table), each with unread count
and last-message timestamp. -/
def chatListFor (viewer : String) (users : List UserRec) (db : DB) : List ChatItem :=
  let involved := db.filter fun m => m.senderId == viewer || m.receiverId == viewer
  let partnerIds := involved.map fun m =>
    if m.senderId == viewer then m.receiverId else m.senderId
  let chatPartners := users.filter fun u => partnerIds.contains u.id
  chatPartners.map fun u =>
    ⟨u.id, u.username, unreadCount u.id viewer db, lastMessageTimestamp viewer u.id db⟩

/-- Failure flags for getChats. Unlike getMessages, its redis.set sits in
its own try/catch (lines 251-258), so a set failure is logged and the
response is still sent. -/
structure ChatFaults where
  getOk : Bool
  delOk : Bool
  setOk : Bool
deriving DecidableEq

/-- The store-path tail of getChats: aggregate, cache unconditionally
(set failure swallowed), respond. -/
def getChatsMiss (db : DB) (users : List UserRec) (cache : Cache)
    (viewer : String) (setOk : Bool) : ReadOutcome :=
  let l := chatListFor viewer users db
  let cache2 :=
    if setOk then cacheSet cache (chatsKey viewer) (.chats l) MESSAGE_CACHE_TTL else cache
  ⟨db, cache2, .payload (.chats l) false⟩

/-- getChats (messageController.ts lines 149-265): cache-aside read under
the per-viewer chats key; corrupt payloads are deleted and the store path
runs. -/
def getChats (db : DB) (users : List UserRec) (cache : Cache)
    (currentUserId : String) (f : ChatFaults) : ReadOutcome :=
  let key := chatsKey currentUserId
  if f.getOk then
    match cacheGet cache key with
    | some e =>
      match parseCache e.val with
      | some p => ⟨db, cache, .payload p true⟩
      | none =>
        if f.delOk then
          getChatsMiss db users (cacheDel cache key) currentUserId f.setOk
        else ⟨db, cache, .serverError⟩
    | none => getChatsMiss db users cache currentUserId f.setOk
  else ⟨db, cache, .serverError⟩

/-! ### Derived predicates and concrete sample data -/

/-- The message branch aborts on content grounds: a JSON.parse throw while
normalizing either content field, or either normalized value failing
isHybridEncrypted. -/
def contentAborts (cfs cfr : ContentInput) : Bool :=
  match normalize cfs, normalize cfr with
  | some sv, some rv => !(validJS sv && validJS rv)
  | _, _ => true

/-- Every viewer-item entry stored in the cache is within the configured
cap. -/
def CacheBounded (c : Cache) : Prop :=
  ∀ k e l, (k, e) ∈ c → e.val = CacheVal.items l → l.length ≤ HISTORY_CACHE_LIMIT

/-- A validated envelope shape with the four given strings. -/
def shapeOfQuad (i k m t : String) : EnvShape :=
  ⟨some (.str i), some (.str k), some (.str m), some (.str t)⟩

/-- Sample envelope for the sender's projection (concrete test data). -/
def sampleEnvS : HybridEncrypted := ⟨"i1", "k1", "m1", "t1"⟩

/-- Sample envelope for the receiver's projection (concrete test data). -/
def sampleEnvR : HybridEncrypted := ⟨"i2", "k2", "m2", "t2"⟩

/-- Sample validated shape carrying sampleEnvS. -/
def sampleShapeS : EnvShape := shapeOfQuad "i1" "k1" "m1" "t1"

/-- Sample validated shape carrying sampleEnvR. -/
def sampleShapeR : EnvShape := shapeOfQuad "i2" "k2" "m2" "t2"

/-- An invalid shape: iv is absent. -/
def badShape : EnvShape := ⟨none, some (.str "k"), some (.str "m"), some (.str "t")⟩

/-- Sample socket state: empty store and cache, u2 connected on socket 7. -/
def sampleSock : SockState := ⟨[], [], [("u2", 7)]⟩

/-- A store holding 101 messages from a to b, timestamps descending. -/
def bigDB : DB :=
  (List.range 101).map fun i =>
    ⟨toString i, "a", "b", sampleEnvS, sampleEnvR, 101 - i, true⟩

/-- Sample two-message store between u1 and u2 (one in each direction). -/
def sampleDB : DB :=
  [⟨"ma", "u1", "u2", sampleEnvS, sampleEnvR, 3, false⟩,
   ⟨"mb", "u2", "u1", sampleEnvR, sampleEnvS, 9, false⟩]

/-- Sample cache holding a corrupt payload under u1's viewer key for the
(u1, u2) conversation. -/
def sampleCorruptCache : Cache :=
  [(viewerCacheKey "u1" "u2" "u1", ⟨.corrupt, 120⟩)]

/-- Sample cache whose two viewer keys for the (u1, u2) conversation both
hold an older item. -/
def sampleTwoViewerCache : Cache :=
  [(viewerCacheKey "u1" "u2" "u1", ⟨.items [⟨"x", "u2", 1, sampleEnvS⟩], 90⟩),
   (viewerCacheKey "u1" "u2" "u2", ⟨.items [⟨"x", "u2", 1, sampleEnvR⟩], 90⟩)]

/-! ### Association-list lemmas -/

theorem find?_filter_of_imp {α : Type} (l : List α) (p q : α → Bool)
    (h : ∀ x, p x = true → q x = true) :
    (l.filter q).find? p = l.find? p := by
  induction l with
  | nil => rfl
  | cons a t ih =>
    by_cases hq : q a = true
    · rw [List.filter_cons, if_pos hq]
      by_cases hp : p a = true
      · rw [List.find?_cons_of_pos _ hp, List.find?_cons_of_pos _ hp]
      · rw [List.find?_cons_of_neg _ hp, List.find?_cons_of_neg _ hp, ih]
    · have hp : ¬p a = true := fun hpa => hq (h a hpa)
      rw [List.filter_cons, if_neg hq, List.find?_cons_of_neg _ hp, ih]

theorem alFind_remove_self {α β : Type} [BEq α] [LawfulBEq α]
    (l : List (α × β)) (k : α) : alFind (alRemove l k) k = none := by
  have : (alRemove l k).find? (fun p => p.1 == k) = none := by
    rw [List.find?_eq_none]
    intro p hp
    have := (List.mem_filter.mp hp).2
    simpa using this
  simp [alFind, this]

theorem alFind_remove_ne {α β : Type} [BEq α] [LawfulBEq α]
    (l : List (α × β)) (k k' : α) (h : k' ≠ k) :
    alFind (alRemove l k) k' = alFind l k' := by
  unfold alFind alRemove
  rw [find?_filter_of_imp]
  intro x hx
  have hx' : x.1 = k' := by simpa using hx
  simpa [hx'] using h

theorem alFind_insert_self {α β : Type} [BEq α] [LawfulBEq α]
    (l : List (α × β)) (k : α) (v : β) : alFind (alInsert l k v) k = some v := by
  unfold alFind alInsert
  rw [List.find?_cons_of_pos _ (by simp)]
  rfl

theorem alFind_insert_ne {α β : Type} [BEq α] [LawfulBEq α]
    (l : List (α × β)) (k k' : α) (v : β) (h : k' ≠ k) :
    alFind (alInsert l k v) k' = alFind l k' := by
  have step : alFind (alInsert l k v) k' = alFind (alRemove l k) k' := by
    unfold alFind alInsert
    rw [List.find?_cons_of_neg _ (by simpa using Ne.symm h)]
  rw [step, alFind_remove_ne l k k' h]

theorem mem_alRemove {α β : Type} [BEq α]
    {l : List (α × β)} {k : α} {p : α × β} (h : p ∈ alRemove l k) : p ∈ l :=
  (List.mem_filter.mp h).1

theorem mem_alInsert {α β : Type} [BEq α]
    {l : List (α × β)} {k : α} {v : β} {p : α × β} (h : p ∈ alInsert l k v) :
    p = (k, v) ∨ p ∈ l := by
  rcases List.mem_cons.mp h with h1 | h2
  · exact Or.inl h1
  · exact Or.inr (mem_alRemove h2)

/-! ### Cache-key lemmas -/

theorem string_append_left_cancel {p s t : String} (h : p ++ s = p ++ t) : s = t := by
  have hd : p.data ++ s.data = p.data ++ t.data := by
    have := congrArg String.data h
    simpa [String.data_append] using this
  have hst := List.append_cancel_left hd
  cases s; cases t
  exact congrArg String.mk hst

/-- The two viewer-scoped keys of one conversation differ exactly in the
viewer suffix. -/
theorem viewerCacheKey_ne (a b v w : String) (h : v ≠ w) :
    viewerCacheKey a b v ≠ viewerCacheKey a b w := by
  intro he
  exact h (string_append_left_cancel he)

/-- A viewer-scoped message key is never a chat-list key: the fifth
character differs. -/
theorem viewerCacheKey_ne_chatsKey (a b v u : String) :
    viewerCacheKey a b v ≠ chatsKey u := by
  intro he
  have hd := congrArg String.data he
  have e1 : ("chat:" : String).data = 'c' :: 'h' :: 'a' :: 't' :: ':' :: [] := rfl
  have e2 : ("chats:viewer:" : String).data
      = 'c' :: 'h' :: 'a' :: 't' :: 's' :: ':' :: 'v' :: 'i' :: 'e' :: 'w' :: 'e' :: 'r' :: ':' :: [] := rfl
  simp only [viewerCacheKey, chatsKey, String.data_append, e1, e2, List.append_assoc,
    List.cons_append, List.nil_append] at hd
  injection hd with h1 hd; injection hd with h2 hd; injection hd with h3 hd
  injection hd with h4 hd; injection hd with h5 hd
  exact absurd h5 (by decide)

/-! ### Mark-as-read commutation lemmas -/

theorem readFlip_senderId (o v : String) (m : MessageRecord) :
    (readFlip o v m).senderId = m.senderId := by
  unfold readFlip; split <;> rfl

theorem readFlip_receiverId (o v : String) (m : MessageRecord) :
    (readFlip o v m).receiverId = m.receiverId := by
  unfold readFlip; split <;> rfl

theorem readFlip_timestamp (o v : String) (m : MessageRecord) :
    (readFlip o v m).timestamp = m.timestamp := by
  unfold readFlip; split <;> rfl

theorem readFlip_id (o v : String) (m : MessageRecord) :
    (readFlip o v m).id = m.id := by
  unfold readFlip; split <;> rfl

theorem readFlip_contentForSender (o v : String) (m : MessageRecord) :
    (readFlip o v m).contentForSender = m.contentForSender := by
  unfold readFlip; split <;> rfl

theorem readFlip_contentForReceiver (o v : String) (m : MessageRecord) :
    (readFlip o v m).contentForReceiver = m.contentForReceiver := by
  unfold readFlip; split <;> rfl

theorem pairFilter_markRead (a b o v : String) (db : DB) :
    pairFilter a b (markReadUpdate o v db) = (pairFilter a b db).map (readFlip o v) := by
  unfold pairFilter markReadUpdate
  rw [List.filter_map]
  refine congrArg (List.map (readFlip o v)) ?_
  apply List.filter_congr
  intro m _
  simp only [Function.comp_apply, readFlip_senderId, readFlip_receiverId]

theorem insertDesc_map_readFlip (o v : String) (m : MessageRecord) (l : DB) :
    insertDesc (readFlip o v m) (l.map (readFlip o v)) = (insertDesc m l).map (readFlip o v) := by
  induction l with
  | nil => rfl
  | cons x t ih =>
    simp only [List.map_cons, insertDesc, readFlip_timestamp]
    by_cases hc : m.timestamp ≤ x.timestamp
    · rw [if_pos hc, if_pos hc, List.map_cons, ih]
    · rw [if_neg hc, if_neg hc]
      rfl

theorem sortDesc_map_readFlip (o v : String) (l : DB) :
    sortByTimestampDesc (l.map (readFlip o v))
      = (sortByTimestampDesc l).map (readFlip o v) := by
  induction l with
  | nil => rfl
  | cons x t ih =>
    simp only [List.map_cons, sortByTimestampDesc, ih, insertDesc_map_readFlip]

theorem projectForViewer_map_readFlip (w o v : String) (l : DB) :
    projectForViewer w (l.map (readFlip o v)) = projectForViewer w l := by
  unfold projectForViewer
  rw [List.map_map]
  congr 1
  funext m
  simp only [Function.comp_apply, readFlip_id, readFlip_senderId, readFlip_timestamp,
    readFlip_contentForSender, readFlip_contentForReceiver]

/-- Marking messages read never changes any store-computed history
projection: the updateMany touches only the read flag. -/
theorem storeComputedHistory_markRead (a b o v : String) (db : DB) :
    storeComputedHistory a b (markReadUpdate o v db) = storeComputedHistory a b db := by
  unfold storeComputedHistory
  rw [pairFilter_markRead, sortDesc_map_readFlip, projectForViewer_map_readFlip]

theorem getMessagesMiss_congr (d1 d2 : DB) (c : Cache) (a b : String) (s : Bool)
    (h : storeComputedHistory a b d1 = storeComputedHistory a b d2) :
    (getMessagesMiss d1 c a b s).cache = (getMessagesMiss d2 c a b s).cache ∧
    (getMessagesMiss d1 c a b s).resp = (getMessagesMiss d2 c a b s).resp := by
  unfold getMessagesMiss
  rw [h]
  dsimp only
  constructor
  · split
    · split <;> rfl
    · rfl
  · split
    · split <;> rfl
    · rfl

/-! ### Cache-bound lemmas -/

theorem cacheBounded_remove {c : Cache} (k : String) (h : CacheBounded c) :
    CacheBounded (cacheDel c k) :=
  fun k' e l hm hv => h k' e l (mem_alRemove hm) hv

theorem cacheBounded_set_items {c : Cache} (k : String) {l : List CacheItem} (t : Nat)
    (h : CacheBounded c) (hl : l.length ≤ HISTORY_CACHE_LIMIT) :
    CacheBounded (cacheSet c k (.items l) t) := by
  intro k' e l' hm hv
  rcases mem_alInsert hm with he | hmem
  · have : e = ⟨CacheVal.items l, t⟩ := congrArg Prod.snd he
    rw [this] at hv
    cases hv
    exact hl
  · exact h k' e l' hmem hv

theorem cacheBounded_prepend (f : Bool) {c : Cache} (k : String) (i : CacheItem)
    (h : CacheBounded c) : CacheBounded (prependToViewerCache f c k i) := by
  unfold prependToViewerCache
  cases f
  · simp only [Bool.false_eq_true, if_false]
    apply cacheBounded_set_items _ _ h
    have := List.length_take HISTORY_CACHE_LIMIT
        (i :: (safeParseItems (cacheGet c k)).getD [])
    rw [this]
    exact Nat.min_le_left _ _
  · simpa using h

/-! ### Characterization of the message branch -/

theorem handleMessageFrame_ok
    (st : SockState) (conn : Nat) (u rid newId : String) (now : Nat)
    (cfs cfr : ContentInput) (sv rv : JSVal) (faults : CacheFaults)
    (hs : normalize cfs = some sv) (hr : normalize cfr = some rv)
    (hv : validJS sv = true) (hv2 : validJS rv = true) :
    handleMessageFrame st conn u rid cfs cfr true faults newId now =
      ⟨st.db ++ [⟨newId, u, rid, envOf sv, envOf rv, now, false⟩],
       (let c2 := prependToViewerCache faults.prependSender st.cache
            (viewerCacheKey u rid u) ⟨newId, u, now, envOf sv⟩
        let c3 := prependToViewerCache faults.prependReceiver c2
            (viewerCacheKey u rid rid) ⟨newId, u, now, envOf rv⟩
        let c4 := if faults.chatDelSender then c3 else cacheDel c3 (chatsKey u)
        if faults.chatDelReceiver then c4 else cacheDel c4 (chatsKey rid)),
       (match clientsGet st.clients rid with
        | some c => [(c, Frame.message newId u (envOf rv) now)]
        | none => []) ++
       (match clientsGet st.clients u with
        | some c => [(c, Frame.message newId u (envOf sv) now)]
        | none => []) ++
       [(conn, Frame.sentAck newId)],
       []⟩ := by
  unfold handleMessageFrame
  rw [hs, hr]
  simp only [hv, hv2, Bool.and_self, if_true]

theorem handleMessageFrame_abort
    (st : SockState) (conn : Nat) (u rid newId : String) (now : Nat)
    (cfs cfr : ContentInput) (dbOk : Bool) (faults : CacheFaults)
    (h : contentAborts cfs cfr = true) :
    handleMessageFrame st conn u rid cfs cfr dbOk faults newId now =
      ⟨st.db, st.cache, [(conn, Frame.error "Invalid message format")], []⟩ := by
  cases hs : normalize cfs with
  | none => simp [handleMessageFrame, hs]
  | some sv =>
    cases hr : normalize cfr with
    | none => simp [handleMessageFrame, hs, hr]
    | some rv =>
      have hfalse : (validJS sv && validJS rv) = false := by
        unfold contentAborts at h
        rw [hs, hr] at h
        cases hA : validJS sv <;> cases hB : validJS rv <;>
          simp [hA, hB] at h ⊢
      simp [handleMessageFrame, hs, hr, hfalse]

theorem handleMessageFrame_dbFail
    (st : SockState) (conn : Nat) (u rid newId : String) (now : Nat)
    (cfs cfr : ContentInput) (sv rv : JSVal) (faults : CacheFaults)
    (hs : normalize cfs = some sv) (hr : normalize cfr = some rv) :
    handleMessageFrame st conn u rid cfs cfr false faults newId now =
      ⟨st.db, st.cache, [(conn, Frame.error "Invalid message format")], []⟩ := by
  simp [handleMessageFrame, hs, hr, ite_self]

/-! ### Small computation lemmas -/

theorem prepend_false_eq (c : Cache) (key : String) (item : CacheItem) :
    prependToViewerCache false c key item
      = cacheSet c key
          (.items ((item :: (safeParseItems (cacheGet c key)).getD []).take HISTORY_CACHE_LIMIT))
          CACHE_TTL_SECONDS := rfl

theorem take_limit_cons (x : CacheItem) (l : List CacheItem) :
    (x :: l).take HISTORY_CACHE_LIMIT = x :: l.take 99 := rfl

/-! ### String-order lemmas (for the sorted pair in viewerCacheKey) -/

theorem charLtb_toNat (c d : Char) : charLtb c d = true ↔ c.toNat < d.toNat := by
  unfold charLtb
  simp [Nat.blt_eq]

theorem char_eq_of_toNat_eq {c d : Char} (h : c.toNat = d.toNat) : c = d := by
  unfold Char.toNat at h
  exact Char.ext (UInt32.toNat.inj h)

theorem charListLeb_total (l1 l2 : List Char) :
    charListLeb l1 l2 = true ∨ charListLeb l2 l1 = true := by
  induction l1 generalizing l2 with
  | nil => exact Or.inl rfl
  | cons c cs ih =>
    cases l2 with
    | nil => exact Or.inr rfl
    | cons d ds =>
      by_cases h1 : charLtb c d = true
      · exact Or.inl (by simp [charListLeb, h1])
      · by_cases h2 : charLtb d c = true
        · exact Or.inr (by simp [charListLeb, h2])
        · rcases ih ds with h | h
          · exact Or.inl (by simp [charListLeb, h1, h2, h])
          · exact Or.inr (by simp [charListLeb, h1, h2, h])

theorem charListLeb_antisymm (l1 : List Char) : ∀ l2 : List Char,
    charListLeb l1 l2 = true → charListLeb l2 l1 = true → l1 = l2 := by
  induction l1 with
  | nil =>
    intro l2 _ h21
    cases l2 with
    | nil => rfl
    | cons d ds => simp [charListLeb] at h21
  | cons c cs ih =>
    intro l2 h12 h21
    cases l2 with
    | nil => simp [charListLeb] at h12
    | cons d ds =>
      by_cases h1 : charLtb c d = true
      · have h1f : charLtb d c = false := by
          cases hdc : charLtb d c
          · rfl
          · exfalso
            have ha := (charLtb_toNat c d).mp h1
            have hb := (charLtb_toNat d c).mp hdc
            omega
        simp [charListLeb, h1, h1f] at h21
      · by_cases h2 : charLtb d c = true
        · simp [charListLeb, h1, h2] at h12
        · have hcd : c = d := by
            have hn1 : ¬ c.toNat < d.toNat := fun hl => h1 ((charLtb_toNat c d).mpr hl)
            have hn2 : ¬ d.toNat < c.toNat := fun hl => h2 ((charLtb_toNat d c).mpr hl)
            exact char_eq_of_toNat_eq (by omega)
          have ht := ih ds (by simpa [charListLeb, h1, h2] using h12)
              (by simpa [charListLeb, h1, h2] using h21)
          rw [hcd, ht]

theorem strLeb_total (a b : String) : strLeb a b = true ∨ strLeb b a = true :=
  charListLeb_total a.data b.data

theorem strLeb_antisymm (a b : String) (h1 : strLeb a b = true)
    (h2 : strLeb b a = true) : a = b := by
  have hd := charListLeb_antisymm a.data b.data h1 h2
  cases a; cases b
  exact congrArg String.mk hd

/-- The sorted pair makes the key order-independent in its first two
arguments. -/
theorem viewerCacheKey_comm (a b v : String) :
    viewerCacheKey a b v = viewerCacheKey b a v := by
  unfold viewerCacheKey
  by_cases hab : strLeb a b = true
  · by_cases hba : strLeb b a = true
    · have heq : a = b := strLeb_antisymm a b hab hba
      subst heq
      rfl
    · simp [hab, hba]
  · have hba : strLeb b a = true := by
      rcases strLeb_total a b with h | h
      · exact absurd h hab
      · exact h
    simp [hab, hba]

/-! ### Freshly-appended records head the store-computed history -/

theorem pairFilter_append (a b : String) (l1 l2 : DB) :
    pairFilter a b (l1 ++ l2) = pairFilter a b l1 ++ pairFilter a b l2 := by
  unfold pairFilter
  exact List.filter_append _ _

theorem sortDesc_append_fresh (l : DB) (r : MessageRecord)
    (h : ∀ m ∈ l, m.timestamp < r.timestamp) :
    sortByTimestampDesc (l ++ [r]) = r :: sortByTimestampDesc l := by
  induction l with
  | nil => rfl
  | cons x xs ih =>
    have hx : x.timestamp < r.timestamp := h x (List.mem_cons_self x xs)
    have ih2 := ih (fun m hm => h m (List.mem_cons_of_mem x hm))
    show insertDesc x (sortByTimestampDesc (xs ++ [r]))
        = r :: insertDesc x (sortByTimestampDesc xs)
    rw [ih2]
    simp only [insertDesc]
    rw [if_pos (Nat.le_of_lt hx)]

theorem storeComputed_head_sender (a b newId : String) (now : Nat)
    (es er : HybridEncrypted) (db : DB)
    (hfresh : ∀ m ∈ db, m.timestamp < now) :
    storeComputedHistory a b (db ++ [⟨newId, a, b, es, er, now, false⟩])
      = ⟨newId, a, now, es⟩ :: storeComputedHistory a b db := by
  unfold storeComputedHistory
  rw [pairFilter_append]
  have h1 : pairFilter a b [(⟨newId, a, b, es, er, now, false⟩ : MessageRecord)]
      = [⟨newId, a, b, es, er, now, false⟩] := by
    simp [pairFilter]
  have hf2 : ∀ m ∈ pairFilter a b db,
      m.timestamp < (⟨newId, a, b, es, er, now, false⟩ : MessageRecord).timestamp :=
    fun m hm => hfresh m (List.mem_filter.mp hm).1
  rw [h1, sortDesc_append_fresh _ _ hf2]
  unfold projectForViewer
  rw [List.map_cons]
  congr 1
  simp

theorem storeComputed_head_receiver (a b newId : String) (now : Nat)
    (es er : HybridEncrypted) (db : DB) (hab : a ≠ b)
    (hfresh : ∀ m ∈ db, m.timestamp < now) :
    storeComputedHistory b a (db ++ [⟨newId, a, b, es, er, now, false⟩])
      = ⟨newId, a, now, er⟩ :: storeComputedHistory b a db := by
  unfold storeComputedHistory
  rw [pairFilter_append]
  have h1 : pairFilter b a [(⟨newId, a, b, es, er, now, false⟩ : MessageRecord)]
      = [⟨newId, a, b, es, er, now, false⟩] := by
    simp [pairFilter]
  have hf2 : ∀ m ∈ pairFilter b a db,
      m.timestamp < (⟨newId, a, b, es, er, now, false⟩ : MessageRecord).timestamp :=
    fun m hm => hfresh m (List.mem_filter.mp hm).1
  rw [h1, sortDesc_append_fresh _ _ hf2]
  unfold projectForViewer
  rw [List.map_cons]
  congr 1
  have hne : (a == b) = false := beq_false_of_ne hab
  simp [hne]

/-! ### Characterization of the wired message branch -/

theorem handleMessageFrameWired_ok
    (st : SockState) (conn : Nat) (u rid newId : String) (now : Nat)
    (cfs cfr : ContentInput) (sv rv : JSVal)
    (hs : normalize cfs = some sv) (hr : normalize cfr = some rv)
    (hv : validJS sv = true) (hv2 : validJS rv = true) :
    handleMessageFrameWired st conn u rid cfs cfr true false false newId now =
      ⟨st.db ++ [⟨newId, u, rid, envOf sv, envOf rv, now, false⟩],
       cacheDel (cacheDel st.cache (viewerCacheKey u rid u)) (viewerCacheKey u rid rid),
       (match clientsGet st.clients rid with
        | some c => [(c, Frame.message newId u (envOf rv) now)]
        | none => []) ++
       (match clientsGet st.clients u with
        | some c => [(c, Frame.message newId u (envOf sv) now)]
        | none => []) ++
       [(conn, Frame.sentAck newId)],
       []⟩ := by
  unfold handleMessageFrameWired
  rw [hs, hr]
  simp only [hv, hv2, Bool.and_self, if_true]
  rfl

theorem handleMessageFrameWired_delS
    (st : SockState) (conn : Nat) (u rid newId : String) (now : Nat)
    (cfs cfr : ContentInput) (sv rv : JSVal) (dr : Bool)
    (hs : normalize cfs = some sv) (hr : normalize cfr = some rv)
    (hv : validJS sv = true) (hv2 : validJS rv = true) :
    handleMessageFrameWired st conn u rid cfs cfr true true dr newId now =
      ⟨st.db ++ [⟨newId, u, rid, envOf sv, envOf rv, now, false⟩], st.cache,
       [(conn, Frame.error "Invalid message format")], []⟩ := by
  unfold handleMessageFrameWired
  rw [hs, hr]
  simp only [hv, hv2, Bool.and_self, if_true]

theorem handleMessageFrameWired_delR
    (st : SockState) (conn : Nat) (u rid newId : String) (now : Nat)
    (cfs cfr : ContentInput) (sv rv : JSVal)
    (hs : normalize cfs = some sv) (hr : normalize cfr = some rv)
    (hv : validJS sv = true) (hv2 : validJS rv = true) :
    handleMessageFrameWired st conn u rid cfs cfr true false true newId now =
      ⟨st.db ++ [⟨newId, u, rid, envOf sv, envOf rv, now, false⟩],
       cacheDel st.cache (viewerCacheKey u rid u),
       [(conn, Frame.error "Invalid message format")], []⟩ := by
  unfold handleMessageFrameWired
  rw [hs, hr]
  simp only [hv, hv2, Bool.and_self, if_true]
  rfl

/-! ### Claims about the ingest pipeline -/

/-- Claim C1: on an authenticated connection, a message frame whose two
envelopes both validate and whose persistence succeeds appends exactly one
message record — senderId the connection's bound identity, receiverId from
the frame, the two validated envelopes, the given timestamp — and this is
the same for every cache-availability configuration (faults is universally
quantified and absent from the right-hand side). -/
theorem claim_C1 (st : SockState) (conn : Nat) (u rid newId : String) (now : Nat)
    (cfs cfr : ContentInput) (so ro : EnvShape) (faults : CacheFaults)
    (hs : normalize cfs = some (.obj so)) (hr : normalize cfr = some (.obj ro))
    (hvs : isHybridEncrypted so = true) (hvr : isHybridEncrypted ro = true) :
    (handleMessageFrame st conn u rid cfs cfr true faults newId now).db
      = st.db ++ [⟨newId, u, rid, toEnvelope so, toEnvelope ro, now, false⟩] := by
  rw [handleMessageFrame_ok st conn u rid newId now cfs cfr _ _ faults hs hr hvs hvr]
  rfl

/-- Witness for C1 at a concrete send, with two of the cache faults
active. -/
theorem claim_C1_witness :
    (handleMessageFrame sampleSock 1 "u1" "u2" (.objIn (.obj sampleShapeS))
        (.objIn (.obj sampleShapeR)) true ⟨true, false, true, false⟩ "m1" 5).db
      = [⟨"m1", "u1", "u2", sampleEnvS, sampleEnvR, 5, false⟩] := by
  have h := claim_C1 sampleSock 1 "u1" "u2" "m1" 5 (.objIn (.obj sampleShapeS))
      (.objIn (.obj sampleShapeR)) sampleShapeS sampleShapeR
      ⟨true, false, true, false⟩ rfl rfl (by decide) (by decide)
  simpa using h

/-- Counterexample to C2 as stated: in the wired pipeline
(src/socket/socket.ts, imported by server.ts), with the receiver
registered, a failing viewer-key delete after a successful persistence
yields exactly one generic error frame — the fan-out and the ack are
suppressed — while the record was already persisted. -/
theorem claim_C2_counterexample :
    clientsGet sampleSock.clients "u2" = some 7
    ∧ (handleMessageFrameWired sampleSock 1 "u1" "u2" (.objIn (.obj sampleShapeS))
        (.objIn (.obj sampleShapeR)) true true false "m1" 5).outputs
      = [(1, Frame.error "Invalid message format")]
    ∧ (1, Frame.sentAck "m1")
        ∉ (handleMessageFrameWired sampleSock 1 "u1" "u2" (.objIn (.obj sampleShapeS))
            (.objIn (.obj sampleShapeR)) true true false "m1" 5).outputs
    ∧ (7, Frame.message "m1" "u1" sampleEnvR 5)
        ∉ (handleMessageFrameWired sampleSock 1 "u1" "u2" (.objIn (.obj sampleShapeS))
            (.objIn (.obj sampleShapeR)) true true false "m1" 5).outputs
    ∧ (handleMessageFrameWired sampleSock 1 "u1" "u2" (.objIn (.obj sampleShapeS))
        (.objIn (.obj sampleShapeR)) true true false "m1" 5).db
      = [⟨"m1", "u1", "u2", sampleEnvS, sampleEnvR, 5, false⟩] :=
  ⟨rfl, rfl, by decide, by decide, rfl⟩

/-- Claim C2 (amended): in the wired pipeline, once persistence succeeded
the two awaited viewer-key cache deletes gate the rest. When both succeed,
the emitted frames are exactly the receiver fan-out (when registered), the
sender echo (when registered) and the message_sent_ack, with no error
frame. But a failure of either redis.del is not caught locally: it reaches
the catch-all, which sends a generic error frame and suppresses the
fan-out and the ack, while the persisted record remains in the store (and
any delete already performed stays done). -/
theorem claim_C2 (st : SockState) (conn : Nat) (u rid newId : String) (now : Nat)
    (cfs cfr : ContentInput) (so ro : EnvShape)
    (hs : normalize cfs = some (.obj so)) (hr : normalize cfr = some (.obj ro))
    (hvs : isHybridEncrypted so = true) (hvr : isHybridEncrypted ro = true) :
    ((handleMessageFrameWired st conn u rid cfs cfr true false false newId now).outputs
        = (match clientsGet st.clients rid with
           | some c => [(c, Frame.message newId u (toEnvelope ro) now)]
           | none => []) ++
          (match clientsGet st.clients u with
           | some c => [(c, Frame.message newId u (toEnvelope so) now)]
           | none => []) ++
          [(conn, Frame.sentAck newId)]
      ∧ ∀ d m, (d, Frame.error m)
          ∉ (handleMessageFrameWired st conn u rid cfs cfr true false false newId now).outputs) ∧
    (∀ dr, handleMessageFrameWired st conn u rid cfs cfr true true dr newId now
        = ⟨st.db ++ [⟨newId, u, rid, toEnvelope so, toEnvelope ro, now, false⟩], st.cache,
           [(conn, Frame.error "Invalid message format")], []⟩) ∧
    (handleMessageFrameWired st conn u rid cfs cfr true false true newId now
        = ⟨st.db ++ [⟨newId, u, rid, toEnvelope so, toEnvelope ro, now, false⟩],
           cacheDel st.cache (viewerCacheKey u rid u),
           [(conn, Frame.error "Invalid message format")], []⟩) := by
  refine ⟨⟨?_, ?_⟩, ?_, ?_⟩
  · rw [handleMessageFrameWired_ok st conn u rid newId now cfs cfr _ _ hs hr hvs hvr]
    rfl
  · intro d m hm
    rw [handleMessageFrameWired_ok st conn u rid newId now cfs cfr _ _ hs hr hvs hvr] at hm
    cases hrecv : clientsGet st.clients rid <;> cases hsend : clientsGet st.clients u <;>
      simp [hrecv, hsend] at hm
  · intro dr
    rw [handleMessageFrameWired_delS st conn u rid newId now cfs cfr _ _ dr hs hr hvs hvr]
    rfl
  · rw [handleMessageFrameWired_delR st conn u rid newId now cfs cfr _ _ hs hr hvs hvr]
    rfl

/-- Witness for the amended C2 at a concrete send whose first viewer-key
delete fails: one error frame, no ack, record persisted. -/
theorem claim_C2_witness :
    handleMessageFrameWired sampleSock 1 "u1" "u2" (.objIn (.obj sampleShapeS))
        (.objIn (.obj sampleShapeR)) true true false "m1" 5
      = ⟨sampleSock.db ++ [⟨"m1", "u1", "u2", toEnvelope sampleShapeS,
            toEnvelope sampleShapeR, 5, false⟩],
         sampleSock.cache, [(1, Frame.error "Invalid message format")], []⟩ :=
  (claim_C2 sampleSock 1 "u1" "u2" "m1" 5 (.objIn (.obj sampleShapeS))
      (.objIn (.obj sampleShapeR)) sampleShapeS sampleShapeR rfl rfl
      (by decide) (by decide)).2.1 false

/-! ### Claims C9, C3, C7 and C10 -/

theorem isStr_iff (x : Option FieldVal) :
    isStr x = true ↔ ∃ s, x = some (FieldVal.str s) := by
  cases x with
  | none => simp [isStr]
  | some v => cases v <;> simp [isStr]

/-- Counterexample to C9 as stated: at a concrete message frame with an
invalid sender envelope, the only frame surfaced to the sender reads
"Invalid message format" — not the claimed "invalid content format" under
either capitalization. -/
theorem claim_C9_counterexample :
    (handleMessageFrame sampleSock 1 "u1" "u2" (.objIn (.obj badShape))
        (.objIn (.obj sampleShapeR)) true ⟨false, false, false, false⟩ "m1" 5).outputs
      = [(1, Frame.error "Invalid message format")]
    ∧ (1, Frame.error "Invalid content format")
        ∉ (handleMessageFrame sampleSock 1 "u1" "u2" (.objIn (.obj badShape))
            (.objIn (.obj sampleShapeR)) true ⟨false, false, false, false⟩ "m1" 5).outputs
    ∧ (1, Frame.error "invalid content format")
        ∉ (handleMessageFrame sampleSock 1 "u1" "u2" (.objIn (.obj badShape))
            (.objIn (.obj sampleShapeR)) true ⟨false, false, false, false⟩ "m1" 5).outputs := by
  exact ⟨rfl, by decide, by decide⟩

/-- Claim C9 (amended): an envelope shape is valid iff all four fields are
present and are strings; and whenever either content field of a message
frame fails to normalize or validate, the handler leaves the store and the
cache untouched, closes nothing, and sends exactly one generic error frame
to the sender — whose text is "Invalid message format" (the "Invalid
content format" wording exists only in the internal exception, not in the
surfaced frame). -/
theorem claim_C9 :
    (∀ o : EnvShape, isHybridEncrypted o = true ↔
      ((∃ s, o.iv = some (FieldVal.str s)) ∧ (∃ s, o.encryptedKey = some (FieldVal.str s)) ∧
       (∃ s, o.encryptedMessage = some (FieldVal.str s)) ∧
       (∃ s, o.authTag = some (FieldVal.str s)))) ∧
    (∀ (st : SockState) (conn : Nat) (u rid newId : String) (now : Nat)
       (cfs cfr : ContentInput) (dbOk : Bool) (faults : CacheFaults),
      contentAborts cfs cfr = true →
      handleMessageFrame st conn u rid cfs cfr dbOk faults newId now
        = ⟨st.db, st.cache, [(conn, Frame.error "Invalid message format")], []⟩) := by
  constructor
  · intro o
    obtain ⟨i, k, m, t⟩ := o
    simp [isHybridEncrypted, Bool.and_eq_true, isStr_iff, and_assoc]
  · intro st conn u rid newId now cfs cfr dbOk faults h
    exact handleMessageFrame_abort st conn u rid newId now cfs cfr dbOk faults h

/-- Witness for C9 at a concrete aborting frame. -/
theorem claim_C9_witness :
    handleMessageFrame sampleSock 1 "u1" "u2" (.objIn (.obj badShape))
        (.objIn (.obj sampleShapeR)) true ⟨false, false, false, false⟩ "m1" 5
      = ⟨[], [], [(1, Frame.error "Invalid message format")], []⟩ := by
  have h := claim_C9.2 sampleSock 1 "u1" "u2" "m1" 5 (.objIn (.obj badShape))
      (.objIn (.obj sampleShapeR)) true ⟨false, false, false, false⟩ (by decide)
  simpa [sampleSock] using h

/-- Counterexample to C3 as stated: a one-to-one history read over a store
holding 101 messages writes all 101 projected items into the viewer cache
entry, exceeding the fixed cap of 100. -/
theorem claim_C3_counterexample :
    ∃ l, cacheGet (getMessages bigDB [] "a" "b" ⟨true, true, true, true⟩).cache
          (viewerCacheKey "a" "b" "a")
        = some ⟨.items l, MESSAGE_CACHE_TTL⟩
      ∧ HISTORY_CACHE_LIMIT < l.length := by
  refine ⟨storeComputedHistory "a" "b" (markReadUpdate "b" "a" bigDB), ?_, ?_⟩
  · rfl
  · decide

/-- Claim C3 (amended): message sends preserve the viewer-cache bound — if
every cached items entry is within HISTORY_CACHE_LIMIT before a message
frame is handled, it still is afterwards, for every outcome and fault
configuration, because prependToViewerCache truncates to the cap. (History
reads are excluded: getMessages writes the full store projection,
unbounded, as the counterexample shows.) -/
theorem claim_C3 (st : SockState) (conn : Nat) (u rid newId : String) (now : Nat)
    (cfs cfr : ContentInput) (dbOk : Bool) (faults : CacheFaults)
    (h : CacheBounded st.cache) :
    CacheBounded (handleMessageFrame st conn u rid cfs cfr dbOk faults newId now).cache := by
  cases hca : contentAborts cfs cfr
  · unfold contentAborts at hca
    cases hs : normalize cfs with
    | none => rw [hs] at hca; simp at hca
    | some sv =>
      cases hr : normalize cfr with
      | none => rw [hs, hr] at hca; simp at hca
      | some rv =>
        rw [hs, hr] at hca
        have hv : validJS sv = true ∧ validJS rv = true := by simpa using hca
        obtain ⟨h1, h2⟩ := hv
        cases dbOk
        · rw [handleMessageFrame_dbFail st conn u rid newId now cfs cfr sv rv faults hs hr]
          exact h
        · rw [handleMessageFrame_ok st conn u rid newId now cfs cfr sv rv faults hs hr h1 h2]
          dsimp only
          split <;> split <;>
            first
            | exact cacheBounded_prepend _ _ _ (cacheBounded_prepend _ _ _ h)
            | exact cacheBounded_remove _
                (cacheBounded_prepend _ _ _ (cacheBounded_prepend _ _ _ h))
            | exact cacheBounded_remove _ (cacheBounded_remove _
                (cacheBounded_prepend _ _ _ (cacheBounded_prepend _ _ _ h)))
  · rw [handleMessageFrame_abort st conn u rid newId now cfs cfr dbOk faults hca]
    exact h

/-- Witness for the amended C3 at a concrete send from an empty cache. -/
theorem claim_C3_witness :
    CacheBounded (handleMessageFrame sampleSock 1 "u1" "u2" (.objIn (.obj sampleShapeS))
        (.objIn (.obj sampleShapeR)) true ⟨false, false, false, false⟩ "m1" 5).cache :=
  claim_C3 sampleSock 1 "u1" "u2" "m1" 5 (.objIn (.obj sampleShapeS))
    (.objIn (.obj sampleShapeR)) true ⟨false, false, false, false⟩
    (fun k e l hm _ => absurd hm (by simp [sampleSock]))

/-- Claim C7: prependToViewerCache (when its redis calls do not throw)
fetches the current entry, treats an absent entry or a failed decode as
the empty sequence, puts the new item first, truncates to the cap, and
writes the result back with the TTL reset to CACHE_TTL_SECONDS. -/
theorem claim_C7 (c : Cache) (key : String) (item : CacheItem) :
    ∃ l, prependToViewerCache false c key item
          = cacheSet c key (.items l) CACHE_TTL_SECONDS
      ∧ l = (item :: (safeParseItems (cacheGet c key)).getD []).take HISTORY_CACHE_LIMIT
      ∧ l.head? = some item
      ∧ l.length ≤ HISTORY_CACHE_LIMIT
      ∧ (cacheGet c key = none → l = [item])
      ∧ (∀ e, cacheGet c key = some e → safeParseItems (some e) = none → l = [item]) := by
  refine ⟨_, prepend_false_eq c key item, rfl, ?_, ?_, ?_, ?_⟩
  · rw [take_limit_cons]
    rfl
  · rw [List.length_take]
    exact Nat.min_le_left _ _
  · intro h
    rw [h]
    rfl
  · intro e he hn
    rw [he, hn]
    rfl

/-- Witness for C7 on a cache whose entry at the key is corrupt: the write
self-heals to the singleton list. -/
theorem claim_C7_witness :
    ∃ l, prependToViewerCache false sampleCorruptCache (viewerCacheKey "u1" "u2" "u1")
          ⟨"m1", "u1", 5, sampleEnvS⟩
          = cacheSet sampleCorruptCache (viewerCacheKey "u1" "u2" "u1")
              (.items l) CACHE_TTL_SECONDS
      ∧ l = (⟨"m1", "u1", 5, sampleEnvS⟩ ::
          (safeParseItems (cacheGet sampleCorruptCache (viewerCacheKey "u1" "u2" "u1"))).getD
            []).take HISTORY_CACHE_LIMIT
      ∧ l.head? = some ⟨"m1", "u1", 5, sampleEnvS⟩
      ∧ l.length ≤ HISTORY_CACHE_LIMIT
      ∧ (cacheGet sampleCorruptCache (viewerCacheKey "u1" "u2" "u1") = none → l = [⟨"m1", "u1", 5, sampleEnvS⟩])
      ∧ (∀ e, cacheGet sampleCorruptCache (viewerCacheKey "u1" "u2" "u1") = some e →
          safeParseItems (some e) = none → l = [⟨"m1", "u1", 5, sampleEnvS⟩]) :=
  claim_C7 sampleCorruptCache (viewerCacheKey "u1" "u2" "u1") ⟨"m1", "u1", 5, sampleEnvS⟩

theorem handleAuth_fresh (st : ConnState) (c : Nat) (u : String)
    (h : boundGet st.bound c = none) :
    handleAuth st c (.valid u)
      = ({ st with bound := boundSet st.bound c u, registry := clientsSet st.registry u c },
         [(c, .authSuccess "Authentication successful")]) := by
  unfold handleAuth
  rw [h]

theorem handleClose_bound (st : ConnState) (c : Nat) (u : String)
    (h : boundGet st.bound c = some u) :
    handleClose st c
      = { st with registry := clientsDel st.registry u,
                  openConns := st.openConns.filter (fun x => x != c) } := by
  unfold handleClose
  rw [h]

/-- Claim C10: if connection c1 authenticates as u, then c2 authenticates
as the same u (replacing the registry mapping, last-writer-wins), and then
c1 closes, the close handler deletes the registry key u unconditionally:
afterwards u is mapped to no connection at all even though c2 is still
open. -/
theorem claim_C10 (st0 : ConnState) (c1 c2 : Nat) (u : String)
    (h12 : c1 ≠ c2) (hb1 : boundGet st0.bound c1 = none)
    (hb2 : boundGet st0.bound c2 = none) (hopen : c2 ∈ st0.openConns) :
    clientsGet ((handleAuth (handleAuth st0 c1 (.valid u)).1 c2 (.valid u)).1).registry u
      = some c2 ∧
    clientsGet (handleClose ((handleAuth (handleAuth st0 c1 (.valid u)).1 c2 (.valid u)).1)
        c1).registry u = none ∧
    c2 ∈ (handleClose ((handleAuth (handleAuth st0 c1 (.valid u)).1 c2 (.valid u)).1)
        c1).openConns := by
  rw [handleAuth_fresh st0 c1 u hb1]
  have hb2s : boundGet (boundSet st0.bound c1 u) c2 = none := by
    unfold boundGet boundSet
    rw [alFind_insert_ne _ _ _ _ (Ne.symm h12)]
    exact hb2
  rw [handleAuth_fresh _ c2 u hb2s]
  have hb1s : boundGet (boundSet (boundSet st0.bound c1 u) c2 u) c1 = some u := by
    unfold boundGet boundSet
    rw [alFind_insert_ne _ _ _ _ h12]
    exact alFind_insert_self _ _ _
  rw [handleClose_bound _ c1 u hb1s]
  refine ⟨?_, ?_, ?_⟩
  · exact alFind_insert_self _ _ _
  · exact alFind_remove_self _ _
  · exact List.mem_filter.mpr ⟨hopen, by simpa using Ne.symm h12⟩

/-- Witness for C10 at a concrete run with connections 1 and 2. -/
theorem claim_C10_witness :
    clientsGet ((handleAuth (handleAuth ⟨[], [], [1, 2]⟩ 1 (.valid "u")).1 2
        (.valid "u")).1).registry "u" = some 2 ∧
    clientsGet (handleClose ((handleAuth (handleAuth ⟨[], [], [1, 2]⟩ 1 (.valid "u")).1 2
        (.valid "u")).1) 1).registry "u" = none ∧
    2 ∈ (handleClose ((handleAuth (handleAuth ⟨[], [], [1, 2]⟩ 1 (.valid "u")).1 2
        (.valid "u")).1) 1).openConns :=
  claim_C10 ⟨[], [], [1, 2]⟩ 1 2 "u" (by decide) rfl rfl (by decide)

/-! ### Read-path branch lemmas -/

theorem cacheGet_set_self (c : Cache) (k : String) (v : CacheVal) (t : Nat) :
    cacheGet (cacheSet c k v t) k = some ⟨v, t⟩ :=
  alFind_insert_self c k ⟨v, t⟩

theorem cacheGet_del_self (c : Cache) (k : String) :
    cacheGet (cacheDel c k) k = none :=
  alFind_remove_self c k

theorem storeComputed_condMark (v o : String) (mk : Bool) (db : DB) :
    storeComputedHistory v o (if mk then markReadUpdate o v db else db)
      = storeComputedHistory v o db := by
  cases mk
  · rfl
  · exact storeComputedHistory_markRead v o o v db

theorem getMessages_getFail (db : DB) (cache : Cache) (v o : String) (mk d s : Bool) :
    getMessages db cache v o ⟨mk, false, d, s⟩
      = ⟨if mk then markReadUpdate o v db else db, cache, .serverError⟩ := rfl

theorem getMessages_hit (db : DB) (cache : Cache) (v o : String) (mk d s : Bool)
    (e : CacheEntry) (p : CacheVal)
    (hc : cacheGet cache (viewerCacheKey v o v) = some e)
    (hp : parseCache e.val = some p) :
    getMessages db cache v o ⟨mk, true, d, s⟩
      = ⟨if mk then markReadUpdate o v db else db, cache, .payload p true⟩ := by
  simp only [getMessages, hc, hp, if_true]

theorem getMessages_corrupt (db : DB) (cache : Cache) (v o : String) (mk s : Bool)
    (e : CacheEntry)
    (hc : cacheGet cache (viewerCacheKey v o v) = some e)
    (hp : parseCache e.val = none) :
    getMessages db cache v o ⟨mk, true, true, s⟩
      = getMessagesMiss (if mk then markReadUpdate o v db else db)
          (cacheDel cache (viewerCacheKey v o v)) v o s := by
  simp only [getMessages, hc, hp, if_true]

theorem getMessages_delFail (db : DB) (cache : Cache) (v o : String) (mk s : Bool)
    (e : CacheEntry)
    (hc : cacheGet cache (viewerCacheKey v o v) = some e)
    (hp : parseCache e.val = none) :
    getMessages db cache v o ⟨mk, true, false, s⟩
      = ⟨if mk then markReadUpdate o v db else db, cache, .serverError⟩ := by
  simp only [getMessages, hc, hp, if_true, Bool.false_eq_true, if_false]

theorem getMessages_missNone (db : DB) (cache : Cache) (v o : String) (mk d s : Bool)
    (hc : cacheGet cache (viewerCacheKey v o v) = none) :
    getMessages db cache v o ⟨mk, true, d, s⟩
      = getMessagesMiss (if mk then markReadUpdate o v db else db) cache v o s := by
  simp only [getMessages, hc, if_true]

theorem getMessagesMiss_db (d : DB) (c : Cache) (a b : String) (s : Bool) :
    (getMessagesMiss d c a b s).db = d := by
  unfold getMessagesMiss
  dsimp only
  split
  · split <;> rfl
  · rfl

theorem getMessagesMiss_resp_true (d : DB) (c : Cache) (a b : String) :
    (getMessagesMiss d c a b true).resp
      = .payload (.items (storeComputedHistory a b d)) false := by
  unfold getMessagesMiss
  dsimp only
  split <;> rfl

theorem getMessagesMiss_cache_true (d : DB) (c : Cache) (a b : String) :
    (getMessagesMiss d c a b true).cache
      = if (storeComputedHistory a b d).length > 0 then
          cacheSet c (viewerCacheKey a b a) (.items (storeComputedHistory a b d))
            MESSAGE_CACHE_TTL
        else c := by
  unfold getMessagesMiss
  dsimp only
  split <;> rfl

theorem getMessagesMiss_cache_empty (d : DB) (c : Cache) (a b : String) (s : Bool)
    (h : storeComputedHistory a b d = []) :
    (getMessagesMiss d c a b s).cache = c := by
  unfold getMessagesMiss
  dsimp only
  rw [h]
  rfl

theorem getChats_hit (db : DB) (users : List UserRec) (cache : Cache) (u : String)
    (d s : Bool) (e : CacheEntry) (p : CacheVal)
    (hc : cacheGet cache (chatsKey u) = some e)
    (hp : parseCache e.val = some p) :
    getChats db users cache u ⟨true, d, s⟩ = ⟨db, cache, .payload p true⟩ := by
  simp only [getChats, hc, hp, if_true]

theorem getChats_corrupt (db : DB) (users : List UserRec) (cache : Cache) (u : String)
    (s : Bool) (e : CacheEntry)
    (hc : cacheGet cache (chatsKey u) = some e)
    (hp : parseCache e.val = none) :
    getChats db users cache u ⟨true, true, s⟩
      = getChatsMiss db users (cacheDel cache (chatsKey u)) u s := by
  simp only [getChats, hc, hp, if_true]

theorem getChats_missNone (db : DB) (users : List UserRec) (cache : Cache) (u : String)
    (d s : Bool) (hc : cacheGet cache (chatsKey u) = none) :
    getChats db users cache u ⟨true, d, s⟩ = getChatsMiss db users cache u s := by
  simp only [getChats, hc, if_true]

theorem getChatsMiss_true (db : DB) (users : List UserRec) (c : Cache) (u : String) :
    getChatsMiss db users c u true
      = ⟨db, cacheSet c (chatsKey u) (.chats (chatListFor u users db)) MESSAGE_CACHE_TTL,
         .payload (.chats (chatListFor u users db)) false⟩ := rfl

/-- Counterexample to C4 as stated: in the wired pipeline a successful
send (record appended, ack emitted) deletes both viewer entries instead of
prepending projections, so immediately afterwards neither viewer key holds
any entry — in particular no entry with the viewer's own projection as its
newest element. -/
theorem claim_C4_counterexample :
    (handleMessageFrameWired ⟨[], sampleTwoViewerCache, []⟩ 1 "u1" "u2"
        (.objIn (.obj sampleShapeS)) (.objIn (.obj sampleShapeR)) true false false "m1" 5).db
      = [⟨"m1", "u1", "u2", sampleEnvS, sampleEnvR, 5, false⟩]
    ∧ (handleMessageFrameWired ⟨[], sampleTwoViewerCache, []⟩ 1 "u1" "u2"
        (.objIn (.obj sampleShapeS)) (.objIn (.obj sampleShapeR)) true false false "m1" 5).outputs
      = [(1, Frame.sentAck "m1")]
    ∧ cacheGet (handleMessageFrameWired ⟨[], sampleTwoViewerCache, []⟩ 1 "u1" "u2"
        (.objIn (.obj sampleShapeS)) (.objIn (.obj sampleShapeR)) true false false "m1" 5).cache
      (viewerCacheKey "u1" "u2" "u1") = none
    ∧ cacheGet (handleMessageFrameWired ⟨[], sampleTwoViewerCache, []⟩ 1 "u1" "u2"
        (.objIn (.obj sampleShapeS)) (.objIn (.obj sampleShapeR)) true false false "m1" 5).cache
      (viewerCacheKey "u1" "u2" "u2") = none :=
  ⟨rfl, rfl, rfl, rfl⟩

/-- Claim C4 (amended): for distinct identities a, b the two viewer-scoped
keys differ; in the wired pipeline a successful send deletes both viewer
entries rather than prepending projections, so immediately afterwards
neither key holds an entry; each participant's own projection then becomes
the newest (first) element when that participant's next one-to-one history
read recomputes the conversation and repopulates their entry — a's read
returns and caches a's projection (contentForSender) first, b's read
returns and caches b's projection (contentForReceiver) first. -/
theorem claim_C4 (st : SockState) (conn : Nat) (a b newId : String) (now : Nat)
    (cfs cfr : ContentInput) (so ro : EnvShape) (mk mk2 : Bool)
    (hs : normalize cfs = some (.obj so)) (hr : normalize cfr = some (.obj ro))
    (hvs : isHybridEncrypted so = true) (hvr : isHybridEncrypted ro = true)
    (hab : a ≠ b) (hfresh : ∀ m ∈ st.db, m.timestamp < now) :
    viewerCacheKey a b a ≠ viewerCacheKey a b b ∧
    cacheGet (handleMessageFrameWired st conn a b cfs cfr true false false newId now).cache
        (viewerCacheKey a b a) = none ∧
    cacheGet (handleMessageFrameWired st conn a b cfs cfr true false false newId now).cache
        (viewerCacheKey a b b) = none ∧
    (∃ rest,
      (getMessages (handleMessageFrameWired st conn a b cfs cfr true false false newId now).db
          (handleMessageFrameWired st conn a b cfs cfr true false false newId now).cache
          a b ⟨mk, true, true, true⟩).resp
        = .payload (.items (⟨newId, a, now, toEnvelope so⟩ :: rest)) false ∧
      cacheGet (getMessages
            (handleMessageFrameWired st conn a b cfs cfr true false false newId now).db
            (handleMessageFrameWired st conn a b cfs cfr true false false newId now).cache
            a b ⟨mk, true, true, true⟩).cache (viewerCacheKey a b a)
        = some ⟨.items (⟨newId, a, now, toEnvelope so⟩ :: rest), MESSAGE_CACHE_TTL⟩) ∧
    (∃ rest,
      (getMessages (handleMessageFrameWired st conn a b cfs cfr true false false newId now).db
          (handleMessageFrameWired st conn a b cfs cfr true false false newId now).cache
          b a ⟨mk2, true, true, true⟩).resp
        = .payload (.items (⟨newId, a, now, toEnvelope ro⟩ :: rest)) false ∧
      cacheGet (getMessages
            (handleMessageFrameWired st conn a b cfs cfr true false false newId now).db
            (handleMessageFrameWired st conn a b cfs cfr true false false newId now).cache
            b a ⟨mk2, true, true, true⟩).cache (viewerCacheKey b a b)
        = some ⟨.items (⟨newId, a, now, toEnvelope ro⟩ :: rest), MESSAGE_CACHE_TTL⟩) := by
  rw [handleMessageFrameWired_ok st conn a b newId now cfs cfr _ _ hs hr hvs hvr]
  dsimp only
  simp only [envOf]
  have hkAB := viewerCacheKey_ne a b a b hab
  have hcA : cacheGet (cacheDel (cacheDel st.cache (viewerCacheKey a b a))
      (viewerCacheKey a b b)) (viewerCacheKey a b a) = none := by
    unfold cacheGet cacheDel
    rw [alFind_remove_ne _ _ _ hkAB]
    exact alFind_remove_self _ _
  have hcB : cacheGet (cacheDel (cacheDel st.cache (viewerCacheKey a b a))
      (viewerCacheKey a b b)) (viewerCacheKey a b b) = none :=
    alFind_remove_self _ _
  have hcB2 : cacheGet (cacheDel (cacheDel st.cache (viewerCacheKey a b a))
      (viewerCacheKey a b b)) (viewerCacheKey b a b) = none := by
    rw [viewerCacheKey_comm b a b]
    exact hcB
  refine ⟨hkAB, hcA, hcB, ?_, ?_⟩
  · rw [getMessages_missNone _ _ a b mk true true hcA]
    have hd : storeComputedHistory a b
        (if mk then
          markReadUpdate b a
            (st.db ++ [⟨newId, a, b, toEnvelope so, toEnvelope ro, now, false⟩])
         else st.db ++ [⟨newId, a, b, toEnvelope so, toEnvelope ro, now, false⟩])
        = ⟨newId, a, now, toEnvelope so⟩ :: storeComputedHistory a b st.db := by
      rw [storeComputed_condMark]
      exact storeComputed_head_sender a b newId now (toEnvelope so) (toEnvelope ro) st.db hfresh
    refine ⟨storeComputedHistory a b st.db, ?_, ?_⟩
    · rw [getMessagesMiss_resp_true, hd]
    · rw [getMessagesMiss_cache_true, hd, if_pos (by simp)]
      exact cacheGet_set_self _ _ _ _
  · rw [getMessages_missNone _ _ b a mk2 true true hcB2]
    have hd : storeComputedHistory b a
        (if mk2 then
          markReadUpdate a b
            (st.db ++ [⟨newId, a, b, toEnvelope so, toEnvelope ro, now, false⟩])
         else st.db ++ [⟨newId, a, b, toEnvelope so, toEnvelope ro, now, false⟩])
        = ⟨newId, a, now, toEnvelope ro⟩ :: storeComputedHistory b a st.db := by
      rw [storeComputed_condMark]
      exact storeComputed_head_receiver a b newId now (toEnvelope so) (toEnvelope ro)
        st.db hab hfresh
    refine ⟨storeComputedHistory b a st.db, ?_, ?_⟩
    · rw [getMessagesMiss_resp_true, hd]
    · rw [getMessagesMiss_cache_true, hd, if_pos (by simp)]
      exact cacheGet_set_self _ _ _ _

/-- Witness for the amended C4 at a concrete send from u1 to u2 followed by
each viewer's history read. -/
theorem claim_C4_witness :
    viewerCacheKey "u1" "u2" "u1" ≠ viewerCacheKey "u1" "u2" "u2" ∧
    cacheGet (handleMessageFrameWired sampleSock 1 "u1" "u2" (.objIn (.obj sampleShapeS))
        (.objIn (.obj sampleShapeR)) true false false "m1" 5).cache
        (viewerCacheKey "u1" "u2" "u1") = none ∧
    cacheGet (handleMessageFrameWired sampleSock 1 "u1" "u2" (.objIn (.obj sampleShapeS))
        (.objIn (.obj sampleShapeR)) true false false "m1" 5).cache
        (viewerCacheKey "u1" "u2" "u2") = none ∧
    (∃ rest,
      (getMessages (handleMessageFrameWired sampleSock 1 "u1" "u2"
            (.objIn (.obj sampleShapeS)) (.objIn (.obj sampleShapeR)) true false false "m1" 5).db
          (handleMessageFrameWired sampleSock 1 "u1" "u2"
            (.objIn (.obj sampleShapeS)) (.objIn (.obj sampleShapeR)) true false false "m1" 5).cache
          "u1" "u2" ⟨true, true, true, true⟩).resp
        = .payload (.items (⟨"m1", "u1", 5, toEnvelope sampleShapeS⟩ :: rest)) false ∧
      cacheGet (getMessages (handleMessageFrameWired sampleSock 1 "u1" "u2"
            (.objIn (.obj sampleShapeS)) (.objIn (.obj sampleShapeR)) true false false "m1" 5).db
          (handleMessageFrameWired sampleSock 1 "u1" "u2"
            (.objIn (.obj sampleShapeS)) (.objIn (.obj sampleShapeR)) true false false "m1" 5).cache
          "u1" "u2" ⟨true, true, true, true⟩).cache (viewerCacheKey "u1" "u2" "u1")
        = some ⟨.items (⟨"m1", "u1", 5, toEnvelope sampleShapeS⟩ :: rest), MESSAGE_CACHE_TTL⟩) ∧
    (∃ rest,
      (getMessages (handleMessageFrameWired sampleSock 1 "u1" "u2"
            (.objIn (.obj sampleShapeS)) (.objIn (.obj sampleShapeR)) true false false "m1" 5).db
          (handleMessageFrameWired sampleSock 1 "u1" "u2"
            (.objIn (.obj sampleShapeS)) (.objIn (.obj sampleShapeR)) true false false "m1" 5).cache
          "u2" "u1" ⟨true, true, true, true⟩).resp
        = .payload (.items (⟨"m1", "u1", 5, toEnvelope sampleShapeR⟩ :: rest)) false ∧
      cacheGet (getMessages (handleMessageFrameWired sampleSock 1 "u1" "u2"
            (.objIn (.obj sampleShapeS)) (.objIn (.obj sampleShapeR)) true false false "m1" 5).db
          (handleMessageFrameWired sampleSock 1 "u1" "u2"
            (.objIn (.obj sampleShapeS)) (.objIn (.obj sampleShapeR)) true false false "m1" 5).cache
          "u2" "u1" ⟨true, true, true, true⟩).cache (viewerCacheKey "u2" "u1" "u2")
        = some ⟨.items (⟨"m1", "u1", 5, toEnvelope sampleShapeR⟩ :: rest), MESSAGE_CACHE_TTL⟩) :=
  claim_C4 sampleSock 1 "u1" "u2" "m1" 5 (.objIn (.obj sampleShapeS))
    (.objIn (.obj sampleShapeR)) sampleShapeS sampleShapeR true true rfl rfl
    (by decide) (by decide) (by decide)
    (fun m hm => absurd hm (List.not_mem_nil m))

/-! ### Claims about the read paths -/

/-- Counterexample to C5 as stated: on an empty store, the chat-list read
writes the empty aggregate into the cache with a TTL. -/
theorem claim_C5_counterexample :
    (getChats [] [] [] "u1" ⟨true, true, true⟩).cache
      = [(chatsKey "u1", ⟨.chats [], MESSAGE_CACHE_TTL⟩)]
    ∧ chatListFor "u1" [] [] = [] :=
  ⟨rfl, rfl⟩

/-- Claim C5 (amended): the one-to-one history read caches its
store-computed projection only when non-empty — on a miss with an empty
projection the cache is untouched, and on a corrupt hit with an empty
projection the key ends up absent — while the chat-list read caches its
store-computed aggregate unconditionally, including when it is empty. -/
theorem claim_C5 :
    (∀ (db : DB) (cache : Cache) (v o : String) (mk s : Bool),
       cacheGet cache (viewerCacheKey v o v) = none →
       storeComputedHistory v o db = [] →
       (getMessages db cache v o ⟨mk, true, true, s⟩).cache = cache) ∧
    (∀ (db : DB) (cache : Cache) (v o : String) (t : Nat) (mk s : Bool),
       cacheGet cache (viewerCacheKey v o v) = some ⟨.corrupt, t⟩ →
       storeComputedHistory v o db = [] →
       cacheGet (getMessages db cache v o ⟨mk, true, true, s⟩).cache (viewerCacheKey v o v)
         = none) ∧
    (∀ (db : DB) (users : List UserRec) (cache : Cache) (u : String),
       cacheGet cache (chatsKey u) = none →
       (getChats db users cache u ⟨true, true, true⟩).cache
         = cacheSet cache (chatsKey u) (.chats (chatListFor u users db)) MESSAGE_CACHE_TTL) := by
  refine ⟨?_, ?_, ?_⟩
  · intro db cache v o mk s hc hemp
    rw [getMessages_missNone db cache v o mk true s hc]
    exact getMessagesMiss_cache_empty _ _ _ _ _ ((storeComputed_condMark v o mk db).trans hemp)
  · intro db cache v o t mk s hc hemp
    rw [getMessages_corrupt db cache v o mk s ⟨.corrupt, t⟩ hc rfl]
    rw [getMessagesMiss_cache_empty _ _ _ _ _ ((storeComputed_condMark v o mk db).trans hemp)]
    exact cacheGet_del_self cache (viewerCacheKey v o v)
  · intro db users cache u hc
    rw [getChats_missNone db users cache u true true hc, getChatsMiss_true]

/-- Witness for the amended C5: an empty store on a cold cache leaves the
message cache untouched. -/
theorem claim_C5_witness :
    (getMessages [] [] "u1" "u2" ⟨true, true, true, true⟩).cache = [] :=
  claim_C5.1 [] [] "u1" "u2" true true rfl rfl

/-- Claim C6: a history read (one-to-one or chat list) that finds an
unparseable cached payload deletes the corrupt entry, does not fail, falls
through to the store, and returns the store-computed result; the corrupt
value is no longer present under the key afterwards. -/
theorem claim_C6 :
    (∀ (db : DB) (cache : Cache) (v o : String) (t : Nat) (mk : Bool),
      cacheGet cache (viewerCacheKey v o v) = some ⟨.corrupt, t⟩ →
      (getMessages db cache v o ⟨mk, true, true, true⟩).resp
          = .payload (.items (storeComputedHistory v o db)) false
      ∧ ∀ t2, cacheGet (getMessages db cache v o ⟨mk, true, true, true⟩).cache
            (viewerCacheKey v o v) ≠ some ⟨.corrupt, t2⟩) ∧
    (∀ (db : DB) (users : List UserRec) (cache : Cache) (u : String) (t : Nat),
      cacheGet cache (chatsKey u) = some ⟨.corrupt, t⟩ →
      (getChats db users cache u ⟨true, true, true⟩).resp
          = .payload (.chats (chatListFor u users db)) false
      ∧ cacheGet (getChats db users cache u ⟨true, true, true⟩).cache (chatsKey u)
          = some ⟨.chats (chatListFor u users db), MESSAGE_CACHE_TTL⟩) := by
  constructor
  · intro db cache v o t mk hc
    rw [getMessages_corrupt db cache v o mk true ⟨.corrupt, t⟩ hc rfl]
    constructor
    · rw [getMessagesMiss_resp_true, storeComputed_condMark]
    · intro t2
      rw [getMessagesMiss_cache_true, storeComputed_condMark]
      split
      · rw [cacheGet_set_self]
        simp
      · rw [cacheGet_del_self]
        simp
  · intro db users cache u t hc
    rw [getChats_corrupt db users cache u true ⟨.corrupt, t⟩ hc rfl, getChatsMiss_true]
    exact ⟨rfl, cacheGet_set_self _ _ _ _⟩

/-- Witness for C6 at a concrete corrupt cache entry over a two-message
store. -/
theorem claim_C6_witness :
    (getMessages sampleDB sampleCorruptCache "u1" "u2" ⟨true, true, true, true⟩).resp
        = .payload (.items (storeComputedHistory "u1" "u2" sampleDB)) false
    ∧ ∀ t2, cacheGet (getMessages sampleDB sampleCorruptCache "u1" "u2"
          ⟨true, true, true, true⟩).cache (viewerCacheKey "u1" "u2" "u1")
        ≠ some ⟨.corrupt, t2⟩ :=
  claim_C6.1 sampleDB sampleCorruptCache "u1" "u2" 120 true rfl

/-- Claim C8: the mark-as-read update flips exactly the unread records sent
by the other party to the viewer (touching only the read flag); it is
applied to the store in every branch of getMessages — cache hit, corrupt
hit, miss, and even when a later redis call fails — and, being dispatched
fire-and-forget, its success or failure never changes the response or the
cache contents. -/
theorem claim_C8 :
    (∀ (o v : String) (m : MessageRecord),
       readFlip o v m = if m.senderId = o ∧ m.receiverId = v ∧ m.read = false
           then { m with read := true } else m) ∧
    (∀ (o v : String) (db : DB), markReadUpdate o v db = db.map (readFlip o v)) ∧
    (∀ (db : DB) (cache : Cache) (v o : String) (g d s : Bool),
       (getMessages db cache v o ⟨true, g, d, s⟩).db = markReadUpdate o v db) ∧
    (∀ (db : DB) (cache : Cache) (v o : String) (g d s : Bool),
       (getMessages db cache v o ⟨true, g, d, s⟩).resp
         = (getMessages db cache v o ⟨false, g, d, s⟩).resp ∧
       (getMessages db cache v o ⟨true, g, d, s⟩).cache
         = (getMessages db cache v o ⟨false, g, d, s⟩).cache) := by
  refine ⟨?_, fun _ _ _ => rfl, ?_, ?_⟩
  · intro o v m
    unfold readFlip
    by_cases h1 : m.senderId = o <;> by_cases h2 : m.receiverId = v <;>
      by_cases h3 : m.read = false <;> simp [h1, h2, h3]
  · intro db cache v o g d s
    cases g
    · rfl
    · cases hc : cacheGet cache (viewerCacheKey v o v) with
      | none =>
        rw [getMessages_missNone db cache v o true d s hc]
        exact getMessagesMiss_db _ _ _ _ _
      | some e =>
        cases hp : parseCache e.val with
        | some p =>
          rw [getMessages_hit db cache v o true d s e p hc hp]
          rfl
        | none =>
          cases d
          · rw [getMessages_delFail db cache v o true s e hc hp]
            rfl
          · rw [getMessages_corrupt db cache v o true s e hc hp]
            exact getMessagesMiss_db _ _ _ _ _
  · intro db cache v o g d s
    cases g
    · exact ⟨rfl, rfl⟩
    · cases hc : cacheGet cache (viewerCacheKey v o v) with
      | none =>
        rw [getMessages_missNone db cache v o true d s hc,
            getMessages_missNone db cache v o false d s hc]
        have h := getMessagesMiss_congr (markReadUpdate o v db) db cache v o s
            (storeComputedHistory_markRead v o o v db)
        exact ⟨h.2, h.1⟩
      | some e =>
        cases hp : parseCache e.val with
        | some p =>
          rw [getMessages_hit db cache v o true d s e p hc hp,
              getMessages_hit db cache v o false d s e p hc hp]
          exact ⟨rfl, rfl⟩
        | none =>
          cases d
          · rw [getMessages_delFail db cache v o true s e hc hp,
                getMessages_delFail db cache v o false s e hc hp]
            exact ⟨rfl, rfl⟩
          · rw [getMessages_corrupt db cache v o true s e hc hp,
                getMessages_corrupt db cache v o false s e hc hp]
            have h := getMessagesMiss_congr (markReadUpdate o v db) db
                (cacheDel cache (viewerCacheKey v o v)) v o s
                (storeComputedHistory_markRead v o o v db)
            exact ⟨h.2, h.1⟩

/-- Witness for C8 at a concrete corrupt-hit read. -/
theorem claim_C8_witness :
    (getMessages sampleDB sampleCorruptCache "u1" "u2" ⟨true, true, true, true⟩).db
      = markReadUpdate "u2" "u1" sampleDB
    ∧ (getMessages sampleDB sampleCorruptCache "u1" "u2" ⟨true, true, true, true⟩).resp
      = (getMessages sampleDB sampleCorruptCache "u1" "u2" ⟨false, true, true, true⟩).resp :=
  ⟨claim_C8.2.2.1 sampleDB sampleCorruptCache "u1" "u2" true true true,
   (claim_C8.2.2.2 sampleDB sampleCorruptCache "u1" "u2" true true true).1⟩

end TChat



